import Mathlib

/-!
Shallow embedding of `process_file.py` (content-addressed note store).
Pure data is modelled directly; the filesystem is an association list from
path strings to file data; interactive input is a list of events consumed
in order; the current time and the hash function are parameters.
-/

set_option maxRecDepth 10000

/-- Python `str.split(sep)` on a character separator, over char lists:
keeps empty fields, and `"".split(sep) == [""]`. -/
def pySplit (sep : Char) : List Char → List (List Char)
  | [] => [[]]
  | c :: cs =>
    match pySplit sep cs with
    | [] => [[]]
    | t :: ts => if c = sep then [] :: t :: ts else (c :: t) :: ts

/-- Python `s.split('/')[-1]`: the final path segment. -/
def pyLastSeg (s : String) : String :=
  String.mk ((pySplit '/' s.data).getLastD [])

/-- Python `str.capitalize()`: first character uppercased, the rest lowercased. -/
def pyCapitalize (s : String) : String :=
  match s.data with
  | [] => ""
  | c :: cs => String.mk (Char.toUpper c :: cs.map Char.toLower)

/-- `INFO_NAME = '.file_info.json'` (line 48). -/
def INFO_NAME : String := ".file_info.json"

/-- `INFO_NAME.split(".")[1]`, the stem used to build the legacy (pickle)
store file name `.file_info` (lines 32, 61). -/
def legacyBase : String :=
  String.mk ((pySplit '.' INFO_NAME.data).getD 1 [])

/-- `BLOCK_SIZE = 65536` (line 12): the size of each read from the file. -/
def BLOCK_SIZE : Nat := 65536

/-- The sequence of blocks produced by the read loop of `calc_sum`
(lines 19-22): each `f.read(BLOCK_SIZE)` returns the next block of at most
`BLOCK_SIZE` bytes; the loop stops at the first empty read. -/
def readChunks : List Nat → List (List Nat)
  | [] => []
  | b :: bs => (b :: bs).take BLOCK_SIZE :: readChunks ((b :: bs).drop BLOCK_SIZE)
termination_by l => l.length
decreasing_by
  simp only [List.length_drop, List.length_cons, BLOCK_SIZE]
  omega

/-- `calc_sum` (lines 15-24): a `hashlib.sha256()` object absorbs each block
via `update`, and `hexdigest` is a function of the full absorbed byte stream.
The absorbed stream is the left fold of concatenation over the blocks;
`hexdigestOf` abstracts the SHA-256 stream-to-hex map. -/
def calc_sum (hexdigestOf : List Nat → String) (file : List Nat) : String :=
  hexdigestOf (List.foldl (fun absorbed fb => absorbed ++ fb) [] (readChunks file))

theorem readChunks_foldl (l : List Nat) :
    ∀ acc : List Nat,
      List.foldl (fun absorbed fb => absorbed ++ fb) acc (readChunks l) = acc ++ l := by
  induction l using readChunks.induct with
  | case1 =>
    intro acc
    simp [readChunks]
  | case2 b bs ih =>
    intro acc
    rw [readChunks]
    simp only [List.foldl_cons]
    rw [ih, List.append_assoc, List.take_append_drop]

/-- A record of the store: the dict built at lines 107-122, with keys
`date`, `note`, `fname`. -/
structure Record where
  date : String
  note : String
  fname : String
deriving DecidableEq

/-- The store: a Python dict from digest string to record, modelled as an
association list in insertion order. -/
abbrev Store := List (String × Record)

/-- Dict lookup `d[k]` (as an `Option`: `none` is the `KeyError` case). -/
def assocLookup {β : Type} (s : List (String × β)) (k : String) : Option β :=
  match s with
  | [] => none
  | (k₁, v) :: rest => if k₁ = k then some v else assocLookup rest k

/-- Dict assignment `d[k] = v`: updates the value in place when the key is
present, otherwise appends the new binding. -/
def assocInsert {β : Type} (s : List (String × β)) (k : String) (v : β) :
    List (String × β) :=
  if s.any (fun p => p.1 = k) then
    s.map (fun p => if p.1 = k then (k, v) else p)
  else s ++ [(k, v)]

/-- Contents of one on-disk file: either a JSON serialization of a store or
a pickle serialization of a store. -/
inductive FileData where
  | json (data : Store)
  | pickle (data : Store)
deriving DecidableEq

/-- The filesystem: path string to file contents. -/
abbrev FS := List (String × FileData)

/-- `save_info(path, data_dict)` (lines 42-45): writes a JSON file at
`path + '.json'`, whatever `path` is. -/
def save_info (fs : FS) (path : String) (data_dict : Store) : FS :=
  assocInsert fs (path ++ ".json") (FileData.json data_dict)

/-- Result of `load_info`: the loaded mapping together with the filesystem
after any migration write, plus whether the pickle-migration branch ran
(observable as the `logging.warning` at line 35); `notFound` is the
`FileNotFoundError` raised when neither file exists; `decodeErr` is the
crash when a file holds the other serialization format. -/
inductive LoadRes where
  | okRes (data : Store) (migrated : Bool) (fs : FS)
  | notFound
  | decodeErr
deriving DecidableEq

/-- `load_info(path)` (lines 27-39): try `{path}/{INFO_NAME}` as JSON; on
`FileNotFoundError` fall back to the pickle file `{path}/.file_info`, and
after a successful pickle read call `save_info(path, data)` — note the
argument is the directory `path`, so the migration write lands at
`path + '.json'`. -/
def load_info (fs : FS) (path : String) : LoadRes :=
  match assocLookup fs (path ++ "/" ++ INFO_NAME) with
  | some (FileData.json d) => LoadRes.okRes d false fs
  | some (FileData.pickle _) => LoadRes.decodeErr
  | none =>
    match assocLookup fs (path ++ "/." ++ legacyBase) with
    | some (FileData.pickle d) => LoadRes.okRes d true (save_info fs path d)
    | some (FileData.json _) => LoadRes.decodeErr
    | none => LoadRes.notFound

/-- Result of `find_info`: a directory, the `FileNotFoundError` raised at
line 68, or the `NameError`/`UnboundLocalError` raised by `parent -= 1` at
line 66 (`parent` is never defined). -/
inductive FindRes where
  | found (dir : String)
  | notFound
  | nameError
deriving DecidableEq

/-- `find_info` (lines 51-68): `max_parent = opt.max_parent or
len(curr_dir.split('/'))` (`None` and `0` are falsy); loop while
`curr_dir != '/' and upcount < max_parent` with `upcount = 0`; return the
directory if the JSON or the pickle store file exists there; otherwise the
body reassigns `curr_dir` and then executes `parent -= 1`, which raises
`UnboundLocalError` because `parent` was never assigned. -/
def find_info (fs : FS) (curr_dir : String) (max_parent_opt : Option Int) : FindRes :=
  let segs : Int := Int.ofNat (pySplit '/' curr_dir.data).length
  let max_parent : Int :=
    match max_parent_opt with
    | some n => if n = 0 then segs else n
    | none => segs
  if curr_dir ≠ "/" ∧ 0 < max_parent then
    if (assocLookup fs (curr_dir ++ "/" ++ INFO_NAME)).isSome then
      FindRes.found curr_dir
    else if (assocLookup fs (curr_dir ++ "/." ++ legacyBase)).isSome then
      FindRes.found curr_dir
    else
      FindRes.nameError
  else
    FindRes.notFound

/-- The add-policy computed at line 169: `'skip' if args.no_add else 'add'
if args.add else 'ask'`. -/
inductive Policy where
  | add
  | ask
  | skip
deriving DecidableEq

/-- One event delivered to an `input()` call: a text line, or a
`KeyboardInterrupt` raised while the prompt is waiting. -/
inductive Inp where
  | text (s : String)
  | interrupt
deriving DecidableEq

/-- The yes/no convention used at lines 102-103 and 155-156:
`ans = input(...) or 'y'` then acceptance exactly when
`ans.capitalize() == 'Y'`. -/
def confirmAccept (ans : String) : Bool :=
  decide (pyCapitalize (if ans = "" then "y" else ans) = "Y")

/-- Result of the note-solicitation loop (lines 110-117). -/
inductive NoteRes where
  | gotNote (note : String) (rest : List Inp)
  | cancelled (rest : List Inp)
  | eof
deriving DecidableEq

/-- The `while new_file['note'] == ""` loop (lines 110-117): read a line;
a blank line only logs a warning and repeats; `KeyboardInterrupt` is caught
and ends the invocation; `eof` marks input exhaustion (out of model). -/
def noteLoop : List Inp → NoteRes
  | [] => NoteRes.eof
  | Inp.interrupt :: rest => NoteRes.cancelled rest
  | Inp.text t :: rest => if t = "" then noteLoop rest else NoteRes.gotNote t rest

/-- The lookup key of lines 87-90: the supplied `hash_val` if any, else
`calc_sum(file_name)`; `none` when `calc_sum(None)` would be called. -/
def lookupKey (calcSum : String → String) (file_name hash_val : Option String) :
    Option String :=
  match hash_val with
  | some h => some h
  | none => file_name.map calcSum

/-- `missing = hash_val or file_name.split('/')[-1]` (line 96): Python `or`
treats the empty string as falsy; `none` marks the `AttributeError` when
`file_name` is `None` and `hash_val` is falsy. -/
def missingOf (file_name hash_val : Option String) : Option String :=
  match hash_val with
  | some h => if h = "" then file_name.map pyLastSeg else some h
  | none => file_name.map pyLastSeg

/-- `f_sum = hash_val or calc_sum(file_name)` (line 106): again with the
empty string falsy; `none` marks the `calc_sum(None)` crash. -/
def f_sumOf (calcSum : String → String) (file_name hash_val : Option String) :
    Option String :=
  match hash_val with
  | some h => if h = "" then file_name.map calcSum else some h
  | none => file_name.map calcSum

/-- Result of one `process_single` invocation: a normal return
`(changed, file_info)` plus the record printed by `print_info` (if any) and
the unconsumed input; `intr` is an uncaught `KeyboardInterrupt` escaping to
the caller; `fail` covers the assertion failure and the crashes that are
out of the claims' scope (input exhaustion, `None` where a string is
required). -/
inductive PSRes where
  | ok (changed : Bool) (report : Option Record) (file_info : Store) (rest : List Inp)
  | intr (rest : List Inp)
  | fail
deriving DecidableEq

/-- The creation/edit block of `process_single` (lines 106-125): compute
`f_sum`; take the note from `args.note` if non-empty, else run the
solicitation loop (a caught `KeyboardInterrupt` returns
`False, file_info` untouched); trim `file_name` to its final segment; if
that is falsy, prompt for a file name (`input` at line 122 is not guarded,
so an interrupt there propagates); insert the record at `f_sum`. -/
def creation (calcSum : String → String) (now note_arg : String)
    (file_info : Store) (file_name hash_val : Option String)
    (stdin : List Inp) : PSRes :=
  match f_sumOf calcSum file_name hash_val with
  | none => PSRes.fail
  | some f_sum =>
    match (if note_arg = "" then noteLoop stdin else NoteRes.gotNote note_arg stdin) with
    | NoteRes.eof => PSRes.fail
    | NoteRes.cancelled rest => PSRes.ok false none file_info rest
    | NoteRes.gotNote note rest =>
      match file_name.map pyLastSeg with
      | some fn =>
        if fn = "" then
          match rest with
          | [] => PSRes.fail
          | Inp.interrupt :: rest₂ => PSRes.intr rest₂
          | Inp.text t :: rest₂ =>
            PSRes.ok true none (assocInsert file_info f_sum ⟨now, note, t⟩) rest₂
        else
          PSRes.ok true none (assocInsert file_info f_sum ⟨now, note, fn⟩) rest
      | none =>
        match rest with
        | [] => PSRes.fail
        | Inp.interrupt :: rest₂ => PSRes.intr rest₂
        | Inp.text t :: rest₂ =>
          PSRes.ok true none (assocInsert file_info f_sum ⟨now, note, t⟩) rest₂

/-- `process_single` (lines 79-125): assert that a name or hash was given;
unless the policy is `add`, look the key up — a hit prints the record and
returns unchanged; a miss branches on the policy (`skip` returns
unchanged; `ask` prompts, where the unguarded `input` at line 102 lets an
interrupt propagate, an accepted answer falls through to creation and a
declined one returns unchanged); policy `add` goes straight to creation. -/
def process_single (calcSum : String → String) (now note_arg : String)
    (file_info : Store) (add_policy : Policy)
    (file_name hash_val : Option String) (stdin : List Inp) : PSRes :=
  if file_name.isNone && hash_val.isNone then PSRes.fail
  else
    match add_policy with
    | Policy.add => creation calcSum now note_arg file_info file_name hash_val stdin
    | p =>
      match lookupKey calcSum file_name hash_val with
      | none => PSRes.fail
      | some key =>
        match assocLookup file_info key with
        | some search_res => PSRes.ok false (some search_res) file_info stdin
        | none =>
          match missingOf file_name hash_val with
          | none => PSRes.fail
          | some _missing =>
            match p with
            | Policy.skip => PSRes.ok false none file_info stdin
            | _ =>
              match stdin with
              | [] => PSRes.fail
              | Inp.interrupt :: rest => PSRes.intr rest
              | Inp.text ans :: rest =>
                if confirmAccept ans then
                  creation calcSum now note_arg file_info file_name hash_val rest
                else
                  PSRes.ok false none file_info rest

/-- One requested target of the main loops (lines 170-181): a positional
file name or a `--hash` value. -/
inductive Item where
  | file (name : String)
  | hash (h : String)
deriving DecidableEq

/-- Outcome of the per-item loops: normal completion with the final
`changed` flag and store, `sys.exit()` from the `except KeyboardInterrupt`
handlers (lines 173-174, 180-181), or an out-of-model crash. -/
inductive RunRes where
  | finished (changed : Bool) (file_info : Store) (rest : List Inp)
  | exited (file_info : Store) (rest : List Inp)
  | failed
deriving DecidableEq

/-- Dispatch one item as the main loops do: positional names pass
`file_name=fname`, hash values pass `hash_val=h_val`. -/
def runItem (calcSum : String → String) (now note_arg : String) (policy : Policy)
    (file_info : Store) (it : Item) (stdin : List Inp) : PSRes :=
  match it with
  | Item.file fn => process_single calcSum now note_arg file_info policy (some fn) none stdin
  | Item.hash h => process_single calcSum now note_arg file_info policy none (some h) stdin

/-- The main loops (lines 170-181): for each item,
`changed, info = process_single(...)` — the `changed` flag is assigned,
not accumulated, so each iteration overwrites the previous one's flag; a
`KeyboardInterrupt` escaping `process_single` runs `sys.exit()`. -/
def runItems (calcSum : String → String) (now note_arg : String) (policy : Policy) :
    List Item → Bool → Store → List Inp → RunRes
  | [], changed, file_info, stdin => RunRes.finished changed file_info stdin
  | it :: its, _changed, file_info, stdin =>
    match runItem calcSum now note_arg policy file_info it stdin with
    | PSRes.ok c _ file_info₂ rest => runItems calcSum now note_arg policy its c file_info₂ rest
    | PSRes.intr rest => RunRes.exited file_info rest
    | PSRes.fail => RunRes.failed

/-- `load_path = '/'.join([load_path, INFO_NAME])` (line 168): the path
handed to the final `save_info`. -/
def mainStorePath (dir : String) : String := dir ++ "/" ++ INFO_NAME

/-- The end of the run (lines 183-184): `if changed: save_info(load_path, info)`
with `load_path` as built at line 168. -/
def mainPersist (fs : FS) (dir : String) (result : RunRes) : FS :=
  match result with
  | RunRes.finished true file_info _ => save_info fs (mainStorePath dir) file_info
  | _ => fs

/-- Outcome of the generate-a-new-store prompt (lines 154-159). -/
inductive GenRes where
  | proceed (rest : List Inp)
  | exitRun (rest : List Inp)
  | eof
deriving DecidableEq

/-- The generate-a-new-store confirmation (lines 154-159):
`ans = input(...) or 'y'`; decline (`ans.capitalize() != 'Y'`) or an
interrupt at the prompt runs `sys.exit()`. -/
def genStoreDecision : List Inp → GenRes
  | [] => GenRes.eof
  | Inp.interrupt :: rest => GenRes.exitRun rest
  | Inp.text ans :: rest =>
    if confirmAccept ans then GenRes.proceed rest else GenRes.exitRun rest

theorem noteLoop_gotNote_ne (stdin : List Inp) :
    ∀ note rest, noteLoop stdin = NoteRes.gotNote note rest → note ≠ "" := by
  induction stdin with
  | nil =>
    intro note rest h
    simp [noteLoop] at h
  | cons e rest ih =>
    intro note rest₂ h
    cases e with
    | interrupt => simp [noteLoop] at h
    | text t =>
      by_cases ht : t = ""
      · rw [noteLoop, if_pos ht] at h
        exact ih note rest₂ h
      · rw [noteLoop, if_neg ht] at h
        cases h
        exact ht

theorem assocLookup_map_update {β : Type} (k : String) (v : β) (k' : String) (r : β) :
    ∀ s : List (String × β),
      assocLookup (s.map (fun p => if p.1 = k then (k, v) else p)) k' = some r →
      r = v ∨ assocLookup s k' = some r := by
  intro s
  induction s with
  | nil => intro h; simp [assocLookup] at h
  | cons p rest ih =>
    intro h
    obtain ⟨a, b⟩ := p
    by_cases hak : a = k
    · simp only [List.map_cons, hak, if_true] at h
      rw [assocLookup] at h
      by_cases hkk : k = k'
      · rw [if_pos hkk] at h
        cases h
        exact Or.inl rfl
      · rw [if_neg hkk] at h
        rcases ih h with hv | hr
        · exact Or.inl hv
        · rw [assocLookup, hak, if_neg hkk]
          exact Or.inr hr
    · simp only [List.map_cons, if_neg hak] at h
      rw [assocLookup] at h
      by_cases hak' : a = k'
      · rw [if_pos hak'] at h
        rw [assocLookup, if_pos hak']
        exact Or.inr h
      · rw [if_neg hak'] at h
        rcases ih h with hv | hr
        · exact Or.inl hv
        · rw [assocLookup, if_neg hak']
          exact Or.inr hr

theorem assocLookup_append_single {β : Type} (k : String) (v : β) (k' : String) (r : β) :
    ∀ s : List (String × β),
      assocLookup (s ++ [(k, v)]) k' = some r →
      r = v ∨ assocLookup s k' = some r := by
  intro s
  induction s with
  | nil =>
    intro h
    rw [List.nil_append, assocLookup] at h
    by_cases hkk : k = k'
    · rw [if_pos hkk] at h
      cases h
      exact Or.inl rfl
    · rw [if_neg hkk] at h
      simp [assocLookup] at h
  | cons p rest ih =>
    intro h
    obtain ⟨a, b⟩ := p
    rw [List.cons_append, assocLookup] at h
    by_cases hak' : a = k'
    · rw [if_pos hak'] at h
      rw [assocLookup, if_pos hak']
      exact Or.inr h
    · rw [if_neg hak'] at h
      rcases ih h with hv | hr
      · exact Or.inl hv
      · rw [assocLookup, if_neg hak']
        exact Or.inr hr

theorem assocLookup_insert_some {β : Type} (s : List (String × β)) (k : String) (v : β)
    (k' : String) (r : β) (h : assocLookup (assocInsert s k v) k' = some r) :
    r = v ∨ assocLookup s k' = some r := by
  unfold assocInsert at h
  split at h
  · exact assocLookup_map_update k v k' r s h
  · exact assocLookup_append_single k v k' r s h

theorem insert_note_lookup (file_info : Store) (key now note fn : String)
    (hnote : note ≠ "") (k : String) (r : Record)
    (hk : assocLookup (assocInsert file_info key ⟨now, note, fn⟩) k = some r) :
    assocLookup file_info k = some r ∨ r.note ≠ "" := by
  rcases assocLookup_insert_some file_info key ⟨now, note, fn⟩ k r hk with hv | hr
  · right
    rw [hv]
    exact hnote
  · left
    exact hr

theorem creation_note_nonempty (calcSum : String → String) (now note_arg : String)
    (file_info : Store) (file_name hash_val : Option String) (stdin : List Inp)
    (c : Bool) (rep : Option Record) (info₂ : Store) (rest : List Inp)
    (h : creation calcSum now note_arg file_info file_name hash_val stdin
      = PSRes.ok c rep info₂ rest)
    (k : String) (r : Record) (hk : assocLookup info₂ k = some r) :
    assocLookup file_info k = some r ∨ r.note ≠ "" := by
  unfold creation at h
  split at h
  · simp at h
  · rename_i f_sum hsum
    split at h
    · simp at h
    · injection h with hc hrep hinfo hrest
      subst hinfo
      exact Or.inl hk
    · rename_i note rest₁ heq
      have hnote : note ≠ "" := by
        by_cases hna : note_arg = ""
        · rw [if_pos hna] at heq
          exact noteLoop_gotNote_ne stdin note rest₁ heq
        · rw [if_neg hna] at heq
          injection heq with e₁ e₂
          rw [← e₁]
          exact hna
      split at h
      · rename_i fn hfn
        split at h
        · split at h
          · simp at h
          · simp at h
          · injection h with hc hrep hinfo hrest
            subst hinfo
            exact insert_note_lookup file_info f_sum now note _ hnote k r hk
        · injection h with hc hrep hinfo hrest
          subst hinfo
          exact insert_note_lookup file_info f_sum now note fn hnote k r hk
      · split at h
        · simp at h
        · simp at h
        · injection h with hc hrep hinfo hrest
          subst hinfo
          exact insert_note_lookup file_info f_sum now note _ hnote k r hk

/-- C6: no reconciliation invocation ever inserts a record with an empty
note: any record retrievable from the resulting store was already in the
incoming store or carries a non-empty note — the solicitation loop
re-prompts while the note is empty, and a cancellation leaves the store
unchanged. -/
theorem c6_no_empty_note_record (calcSum : String → String) (now note_arg : String)
    (file_info : Store) (add_policy : Policy)
    (file_name hash_val : Option String) (stdin : List Inp)
    (c : Bool) (rep : Option Record) (info₂ : Store) (rest : List Inp)
    (h : process_single calcSum now note_arg file_info add_policy file_name hash_val stdin
      = PSRes.ok c rep info₂ rest)
    (k : String) (r : Record) (hk : assocLookup info₂ k = some r) :
    assocLookup file_info k = some r ∨ r.note ≠ "" := by
  unfold process_single at h
  split at h
  · simp at h
  · split at h
    · exact creation_note_nonempty calcSum now note_arg file_info file_name hash_val
        stdin c rep info₂ rest h k r hk
    · split at h
      · simp at h
      · split at h
        · injection h with hc hrep hinfo hrest
          subst hinfo
          exact Or.inl hk
        · split at h
          · simp at h
          · split at h
            · injection h with hc hrep hinfo hrest
              subst hinfo
              exact Or.inl hk
            · split at h
              · simp at h
              · simp at h
              · split at h
                · exact creation_note_nonempty calcSum now note_arg file_info file_name
                    hash_val _ c rep info₂ rest h k r hk
                · injection h with hc hrep hinfo hrest
                  subst hinfo
                  exact Or.inl hk

/-- C6 witness: a concrete `add` invocation that inserts at key "h"; the
inserted record's note "n" is non-empty. -/
theorem c6_witness :
    assocLookup ([] : Store) "h" = some ⟨"t", "n", "a"⟩ ∨ Record.note ⟨"t", "n", "a"⟩ ≠ "" :=
  c6_no_empty_note_record (fun _ => "h") "t" "n" [] Policy.add (some "a") none []
    true none [("h", ⟨"t", "n", "a"⟩)] [] (by decide) "h" ⟨"t", "n", "a"⟩ (by decide)

/-- C7: an invocation whose note solicitation is cancelled (the
`KeyboardInterrupt` caught at lines 115-117) returns a changed-flag of
`false` and the store exactly as it was — both for the creation block
itself and for a full `add`-policy invocation; no partial record is
applied. -/
theorem c7_note_cancel_unchanged (calcSum : String → String) (now : String)
    (file_info : Store) (file_name hash_val : Option String) (f_sum : String)
    (stdin rest : List Inp)
    (hsum : f_sumOf calcSum file_name hash_val = some f_sum)
    (hcancel : noteLoop stdin = NoteRes.cancelled rest) :
    creation calcSum now "" file_info file_name hash_val stdin
      = PSRes.ok false none file_info rest ∧
    process_single calcSum now "" file_info Policy.add file_name hash_val stdin
      = PSRes.ok false none file_info rest := by
  have hcr : creation calcSum now "" file_info file_name hash_val stdin
      = PSRes.ok false none file_info rest := by
    unfold creation
    rw [hsum, if_pos rfl, hcancel]
  refine ⟨hcr, ?_⟩
  unfold process_single
  have hguard : (file_name.isNone && hash_val.isNone) = false := by
    cases hash_val with
    | some h => simp
    | none =>
      cases file_name with
      | none => simp [f_sumOf] at hsum
      | some fn => simp
  rw [if_neg (by simp [hguard])]
  exact hcr

/-- C7 witness: a concrete cancellation at the note prompt. -/
theorem c7_witness :
    creation (fun _ => "h") "t" "" [] (some "a") none [Inp.interrupt]
      = PSRes.ok false none [] [] ∧
    process_single (fun _ => "h") "t" "" [] Policy.add (some "a") none [Inp.interrupt]
      = PSRes.ok false none [] [] :=
  c7_note_cancel_unchanged (fun _ => "h") "t" [] (some "a") none "h"
    [Inp.interrupt] [] (by decide) (by decide)

/-- C9: when both a file path and a (non-empty) digest are supplied, the
digest is the lookup key (the record reported on a hit is the one stored
under the digest, whatever the file would hash to) and the insertion key
on creation, and the filename stored on creation is the final segment of
the supplied path. The digest is non-empty (a hex digest always is), the
path's final segment is non-empty (it names a file) and a literal note is
supplied so no prompting occurs. -/
theorem c9_digest_precedence (calcSum : String → String) (now note_arg : String)
    (file_info : Store) (path h : String) (r : Record) (stdin : List Inp)
    (hh : h ≠ "") (hseg : pyLastSeg path ≠ "") (hnote : note_arg ≠ "")
    (hfound : assocLookup file_info h = some r) :
    process_single calcSum now note_arg file_info Policy.ask (some path) (some h) stdin
      = PSRes.ok false (some r) file_info stdin ∧
    process_single calcSum now note_arg file_info Policy.add (some path) (some h) stdin
      = PSRes.ok true none
          (assocInsert file_info h ⟨now, note_arg, pyLastSeg path⟩) stdin := by
  constructor
  · unfold process_single
    rw [if_neg (by simp)]
    show (match assocLookup file_info h with
      | some search_res => PSRes.ok false (some search_res) file_info stdin
      | none => _) = _
    rw [hfound]
  · unfold process_single
    rw [if_neg (by simp)]
    show creation calcSum now note_arg file_info (some path) (some h) stdin = _
    have hf : f_sumOf calcSum (some path) (some h) = some h := by
      simp only [f_sumOf]
      rw [if_neg hh]
    simp only [creation, hf, if_neg hnote, Option.map]
    rw [if_neg hseg]

/-- C9 witness: digest "h2" is in the store under the name "other.txt";
the lookup with path "dir/a.txt" reports the "h2" record, and creation
inserts at "h2" with fname "a.txt". -/
theorem c9_witness :
    process_single (fun _ => "h1") "t1" "n" [("h2", ⟨"t0", "old", "other.txt"⟩)]
        Policy.ask (some "dir/a.txt") (some "h2") []
      = PSRes.ok false (some ⟨"t0", "old", "other.txt"⟩)
          [("h2", ⟨"t0", "old", "other.txt"⟩)] [] ∧
    process_single (fun _ => "h1") "t1" "n" [("h2", ⟨"t0", "old", "other.txt"⟩)]
        Policy.add (some "dir/a.txt") (some "h2") []
      = PSRes.ok true none
          (assocInsert [("h2", ⟨"t0", "old", "other.txt"⟩)] "h2"
            ⟨"t1", "n", pyLastSeg "dir/a.txt"⟩) [] :=
  c9_digest_precedence (fun _ => "h1") "t1" "n" [("h2", ⟨"t0", "old", "other.txt"⟩)]
    "dir/a.txt" "h2" ⟨"t0", "old", "other.txt"⟩ []
    (by decide) (by decide) (by decide) (by decide)

/-- C10: at both yes/no prompts (the `ask` add-confirmation at lines
102-103 and the generate-a-new-store confirmation at lines 155-156), empty
input defaults to yes, and a non-empty answer is accepted exactly when
`capitalize` of it equals "Y" — so "yes" (capitalized "Yes") is a decline:
the generate prompt exits and the add prompt returns the store unchanged. -/
theorem c10_capitalize_confirmation :
    confirmAccept "" = true ∧
    confirmAccept "yes" = false ∧
    (∀ s : String, s ≠ "" → (confirmAccept s = true ↔ pyCapitalize s = "Y")) ∧
    (∀ rest : List Inp, genStoreDecision (Inp.text "yes" :: rest) = GenRes.exitRun rest) ∧
    process_single (fun _ => "h1") "t1" "" [] Policy.ask (some "a") none [Inp.text "yes"]
      = PSRes.ok false none [] [] := by
  refine ⟨by decide, by decide, ?_, ?_, by decide⟩
  · intro s hs
    unfold confirmAccept
    rw [if_neg hs]
    exact decide_eq_true_iff
  · intro rest
    have hno : confirmAccept "yes" = false := by decide
    simp [genStoreDecision, hno]

/-- C10 witness: the general acceptance characterization applied at the
non-empty answer "y". -/
theorem c10_witness :
    confirmAccept "y" = true ↔ pyCapitalize "y" = "Y" :=
  c10_capitalize_confirmation.2.2.1 "y" (by decide)

/-- C8 counterexample: with two requested files and an empty store under
the `ask` policy, a cancellation at the first item's add-confirmation
prompt exits the whole run (`except KeyboardInterrupt: sys.exit()` at
lines 173-174): the result is `exited` — the second item is never
processed and the remaining input is unconsumed — not a continuation to
the next item as the claim states. -/
theorem c8_ask_cancel_exits_run :
    runItems (fun s => if s = "a" then "h1" else "h2") "t1" "" Policy.ask
        [Item.file "a", Item.file "b"] false [] [Inp.interrupt, Inp.text "y"]
      = RunRes.exited [] [Inp.text "y"] := by
  decide

theorem runItems_cons_ok (calcSum : String → String) (now note_arg : String)
    (policy : Policy) (it : Item) (items : List Item) (changed c : Bool)
    (file_info info₂ : Store) (rep : Option Record) (stdin rest : List Inp)
    (h : runItem calcSum now note_arg policy file_info it stdin
      = PSRes.ok c rep info₂ rest) :
    runItems calcSum now note_arg policy (it :: items) changed file_info stdin
      = runItems calcSum now note_arg policy items c info₂ rest := by
  show (match runItem calcSum now note_arg policy file_info it stdin with
    | PSRes.ok c _ file_info₂ rest₂ =>
      runItems calcSum now note_arg policy items c file_info₂ rest₂
    | PSRes.intr rest₂ => RunRes.exited file_info rest₂
    | PSRes.fail => RunRes.failed) = _
  rw [h]

theorem runItems_cons_intr (calcSum : String → String) (now note_arg : String)
    (policy : Policy) (it : Item) (items : List Item) (changed : Bool)
    (file_info : Store) (stdin rest : List Inp)
    (h : runItem calcSum now note_arg policy file_info it stdin = PSRes.intr rest) :
    runItems calcSum now note_arg policy (it :: items) changed file_info stdin
      = RunRes.exited file_info rest := by
  show (match runItem calcSum now note_arg policy file_info it stdin with
    | PSRes.ok c _ file_info₂ rest₂ =>
      runItems calcSum now note_arg policy items c file_info₂ rest₂
    | PSRes.intr rest₂ => RunRes.exited file_info rest₂
    | PSRes.fail => RunRes.failed) = _
  rw [h]

/-- C8 (amended): under the `ask` policy with the key missing, a
cancellation at the note prompt (after an accepting answer) aborts only
the current item — the loop continues with the remaining items, an
unchanged store and a `false` flag — for a file item and a hash item
alike; whereas a cancellation at the add-confirmation prompt itself
(line 102), or at the filename prompt (line 122, reached when only a
digest was supplied), propagates out of `process_single` and exits the
entire run. The digest `dg` and the solicited note `t` are non-empty. -/
theorem c8_cancel_scope (calcSum : String → String) (now fn dg t : String)
    (items : List Item) (changed : Bool) (file_info : Store) (rest : List Inp)
    (hmiss : assocLookup file_info (calcSum fn) = none)
    (hmissh : assocLookup file_info dg = none)
    (hdg : dg ≠ "") (ht : t ≠ "") :
    runItems calcSum now "" Policy.ask (Item.file fn :: items) changed file_info
        (Inp.text "y" :: Inp.interrupt :: rest)
      = runItems calcSum now "" Policy.ask items false file_info rest ∧
    runItems calcSum now "" Policy.ask (Item.hash dg :: items) changed file_info
        (Inp.text "y" :: Inp.interrupt :: rest)
      = runItems calcSum now "" Policy.ask items false file_info rest ∧
    runItems calcSum now "" Policy.ask (Item.file fn :: items) changed file_info
        (Inp.interrupt :: rest)
      = RunRes.exited file_info rest ∧
    runItems calcSum now "" Policy.ask (Item.hash dg :: items) changed file_info
        (Inp.interrupt :: rest)
      = RunRes.exited file_info rest ∧
    runItems calcSum now "" Policy.ask (Item.hash dg :: items) changed file_info
        (Inp.text "y" :: Inp.text t :: Inp.interrupt :: rest)
      = RunRes.exited file_info rest := by
  have hy : confirmAccept "y" = true := by decide
  have hmg : missingOf none (some dg) = some dg := by
    simp only [missingOf]
    rw [if_neg hdg]
  have hfs : f_sumOf calcSum none (some dg) = some dg := by
    simp only [f_sumOf]
    rw [if_neg hdg]
  have hps : process_single calcSum now "" file_info Policy.ask (some fn) none
      (Inp.text "y" :: Inp.interrupt :: rest) = PSRes.ok false none file_info rest := by
    unfold process_single
    rw [if_neg (by simp)]
    show (match assocLookup file_info (calcSum fn) with
      | some search_res => PSRes.ok false (some search_res) file_info _
      | none => _) = _
    rw [hmiss]
    show (match missingOf (some fn) none with
      | none => PSRes.fail
      | some _missing => _) = _
    simp only [missingOf, Option.map, hy, if_true]
    show creation calcSum now "" file_info (some fn) none (Inp.interrupt :: rest) = _
    unfold creation
    simp only [f_sumOf, Option.map, if_pos rfl, noteLoop, if_true]
  have hps₂ : process_single calcSum now "" file_info Policy.ask (some fn) none
      (Inp.interrupt :: rest) = PSRes.intr rest := by
    unfold process_single
    rw [if_neg (by simp)]
    show (match assocLookup file_info (calcSum fn) with
      | some search_res => PSRes.ok false (some search_res) file_info _
      | none => _) = _
    rw [hmiss]
    show (match missingOf (some fn) none with
      | none => PSRes.fail
      | some _missing => _) = _
    simp only [missingOf, Option.map]
  have hps₃ : process_single calcSum now "" file_info Policy.ask none (some dg)
      (Inp.text "y" :: Inp.interrupt :: rest) = PSRes.ok false none file_info rest := by
    unfold process_single
    rw [if_neg (by simp)]
    show (match assocLookup file_info dg with
      | some search_res => PSRes.ok false (some search_res) file_info _
      | none => _) = _
    rw [hmissh]
    show (match missingOf none (some dg) with
      | none => PSRes.fail
      | some _missing => _) = _
    rw [hmg]
    simp only [hy, if_true]
    show creation calcSum now "" file_info none (some dg) (Inp.interrupt :: rest) = _
    unfold creation
    rw [hfs]
    simp only [if_pos rfl, noteLoop, if_true]
  have hps₄ : process_single calcSum now "" file_info Policy.ask none (some dg)
      (Inp.interrupt :: rest) = PSRes.intr rest := by
    unfold process_single
    rw [if_neg (by simp)]
    show (match assocLookup file_info dg with
      | some search_res => PSRes.ok false (some search_res) file_info _
      | none => _) = _
    rw [hmissh]
    show (match missingOf none (some dg) with
      | none => PSRes.fail
      | some _missing => _) = _
    rw [hmg]
  have hps₅ : process_single calcSum now "" file_info Policy.ask none (some dg)
      (Inp.text "y" :: Inp.text t :: Inp.interrupt :: rest) = PSRes.intr rest := by
    unfold process_single
    rw [if_neg (by simp)]
    show (match assocLookup file_info dg with
      | some search_res => PSRes.ok false (some search_res) file_info _
      | none => _) = _
    rw [hmissh]
    show (match missingOf none (some dg) with
      | none => PSRes.fail
      | some _missing => _) = _
    rw [hmg]
    simp only [hy, if_true]
    show creation calcSum now "" file_info none (some dg)
      (Inp.text t :: Inp.interrupt :: rest) = _
    unfold creation
    rw [hfs]
    have hnl : noteLoop (Inp.text t :: Inp.interrupt :: rest)
        = NoteRes.gotNote t (Inp.interrupt :: rest) := by
      rw [noteLoop, if_neg ht]
    simp only [if_pos rfl, hnl, Option.map, if_true]
  exact ⟨runItems_cons_ok calcSum now "" Policy.ask (Item.file fn) items changed false
          file_info file_info none _ rest hps,
        runItems_cons_ok calcSum now "" Policy.ask (Item.hash dg) items changed false
          file_info file_info none _ rest hps₃,
        runItems_cons_intr calcSum now "" Policy.ask (Item.file fn) items changed
          file_info _ rest hps₂,
        runItems_cons_intr calcSum now "" Policy.ask (Item.hash dg) items changed
          file_info _ rest hps₄,
        runItems_cons_intr calcSum now "" Policy.ask (Item.hash dg) items changed
          file_info _ rest hps₅⟩

/-- C8 witness: the amended behavior at a concrete run, for a file item
and a hash item. -/
theorem c8_witness :
    runItems (fun _ => "h1") "t1" "" Policy.ask [Item.file "a"] false []
        [Inp.text "y", Inp.interrupt]
      = runItems (fun _ => "h1") "t1" "" Policy.ask [] false [] [] ∧
    runItems (fun _ => "h1") "t1" "" Policy.ask [Item.hash "h2"] false []
        [Inp.text "y", Inp.interrupt]
      = runItems (fun _ => "h1") "t1" "" Policy.ask [] false [] [] ∧
    runItems (fun _ => "h1") "t1" "" Policy.ask [Item.file "a"] false []
        [Inp.interrupt]
      = RunRes.exited [] [] ∧
    runItems (fun _ => "h1") "t1" "" Policy.ask [Item.hash "h2"] false []
        [Inp.interrupt]
      = RunRes.exited [] [] ∧
    runItems (fun _ => "h1") "t1" "" Policy.ask [Item.hash "h2"] false []
        [Inp.text "y", Inp.text "n1", Inp.interrupt]
      = RunRes.exited [] [] :=
  c8_cancel_scope (fun _ => "h1") "t1" "a" "h2" "n1" [] false [] []
    (by decide) (by decide) (by decide) (by decide)

/-- C5: for every file contents (hence every chunk count, including the
0-chunk, 1-chunk and 2-chunk cases at sizes 0, 65536 and 65537 bytes), the
chunked digest of `calc_sum` equals the single-pass whole-file hash
`hexdigestOf file`, for the same hash function. -/
theorem c5_chunked_digest_eq_single_pass
    (hexdigestOf : List Nat → String) (file : List Nat) :
    calc_sum hexdigestOf file = hexdigestOf file := by
  unfold calc_sum
  rw [readChunks_foldl, List.nil_append]

/-- C1: the run-level changed flag is assigned, not accumulated
(`changed, info = process_single(...)` at lines 172 and 179), so it holds
only the last invocation's flag. Concrete run, `ask` policy: the first
item "a" is missing, is confirmed and added (a mutation); the second item
"b" is found and reports unchanged. The run finishes with a mutated store
but `changed = false`, and the end-of-run persist step writes nothing —
refuting "persisted iff at least one invocation reported a change". -/
theorem c1_changed_flag_overwritten :
    runItems (fun s => if s = "a" then "h1" else "h2") "t1" "" Policy.ask
        [Item.file "a", Item.file "b"] false [("h2", ⟨"t2", "old", "b"⟩)]
        [Inp.text "y", Inp.text "n1"]
      = RunRes.finished false
          [("h2", ⟨"t2", "old", "b"⟩), ("h1", ⟨"t1", "n1", "a"⟩)] [] ∧
    ([("h2", ⟨"t2", "old", "b"⟩), ("h1", ⟨"t1", "n1", "a"⟩)] : Store)
      ≠ [("h2", ⟨"t2", "old", "b"⟩)] ∧
    mainPersist [] "/w"
        (RunRes.finished false
          [("h2", ⟨"t2", "old", "b"⟩), ("h1", ⟨"t1", "n1", "a"⟩)] [])
      = [] := by
  decide

/-- C2: the save/load round trip fails on the code: the end-of-run save
goes through `save_info(load_path, info)` with
`load_path = dir + '/' + INFO_NAME` (line 168), and `save_info` appends a
further `'.json'` (line 43), so the bytes land at
`dir/.file_info.json.json`; `load_info(dir)` reads `dir/.file_info.json`
(line 29), finds neither it nor the legacy file, and raises
`FileNotFoundError` instead of reconstructing the store. -/
theorem c2_roundtrip_not_found :
    load_info
        (save_info [] (mainStorePath "/w")
          [("d1", ⟨"01/01/2020 00:00:00", "note1", "a.txt"⟩)])
        "/w"
      = LoadRes.notFound := by
  decide

/-- C3: with no store file anywhere, the locator never ascends: the first
miss executes `parent -= 1` (line 66) where `parent` was never assigned,
raising `UnboundLocalError` instead of walking to the parent directory and
eventually failing with `FileNotFoundError`. -/
theorem c3_locator_name_error :
    find_info [] "/a/b" none = FindRes.nameError := by
  decide

/-- C4: migration writes to the wrong path: loading a directory holding
only the legacy pickle file calls `save_info(path, data)` with the
directory as `path` (line 37), writing `"/w" + ".json" = "/w.json"` — a
sibling of the directory — so no current-format file
`/w/.file_info.json` exists afterwards, and a second load takes the
pickle-migration branch again (migrated flag `true` both times) instead of
reading the current format without re-invoking migration. -/
theorem c4_migration_not_idempotent :
    load_info [("/w/.file_info", FileData.pickle [("d1", ⟨"t0", "n0", "a.txt"⟩)])] "/w"
      = LoadRes.okRes [("d1", ⟨"t0", "n0", "a.txt"⟩)] true
          [("/w/.file_info", FileData.pickle [("d1", ⟨"t0", "n0", "a.txt"⟩)]),
           ("/w.json", FileData.json [("d1", ⟨"t0", "n0", "a.txt"⟩)])] ∧
    assocLookup
        [("/w/.file_info", FileData.pickle [("d1", ⟨"t0", "n0", "a.txt"⟩)]),
         ("/w.json", FileData.json [("d1", ⟨"t0", "n0", "a.txt"⟩)])]
        (mainStorePath "/w")
      = none ∧
    load_info
        [("/w/.file_info", FileData.pickle [("d1", ⟨"t0", "n0", "a.txt"⟩)]),
         ("/w.json", FileData.json [("d1", ⟨"t0", "n0", "a.txt"⟩)])]
        "/w"
      = LoadRes.okRes [("d1", ⟨"t0", "n0", "a.txt"⟩)] true
          [("/w/.file_info", FileData.pickle [("d1", ⟨"t0", "n0", "a.txt"⟩)]),
           ("/w.json", FileData.json [("d1", ⟨"t0", "n0", "a.txt"⟩)])] := by
  decide
